import Mathlib

/-!
Shallow embedding of the curator-fees reconciliation pipeline
(`src/graphqlClient.ts`, `src/transactionLogs.ts`,
`src/components/CuratorFeesCalculator.tsx`).

Modelling conventions:
* monetary amounts are exact rationals (the TypeScript code divides JS
  numbers; the concrete values in the claims are exactly representable
  in both models);
* JavaScript `Map` objects are association lists: `set` on an existing
  key updates the entry in place, a new key is appended at the end, and
  iteration follows insertion order, exactly as in JS;
* JavaScript `Array.prototype.sort` with a comparator is a stable sort,
  modelled by a stable insertion sort;
* `BigInt(string)` is modelled by `stringToBigInt`, following the
  ECMAScript StringToBigInt grammar (whitespace trimming, empty string
  means zero, `0x`/`0o`/`0b` prefixes, optional sign for decimal); a
  parse failure is the thrown `SyntaxError`, carrying the bad string;
* network effects are parameters: the GraphQL page source and the
  receipt fetcher are function arguments of the embedded operations.
-/

deriving instance DecidableEq for Except

namespace CuratorFees

/-! ### Rational arithmetic helpers.  `Rat.add` / `Rat.div` are marked
irreducible in the library, which blocks kernel evaluation of concrete
runs; these equivalent forms (proved equal to `+` and `/` below, in
`qAdd_eq` and `qDivInt_eq`) reduce.  They are the only arithmetic the
embedded pipeline performs. -/

def qAdd (a b : ℚ) : ℚ :=
  Rat.divInt (a.num * b.den + b.num * a.den) (a.den * b.den)

def qDivInt (a : ℚ) (b : ℤ) : ℚ :=
  Rat.divInt a.num (b * a.den)

/-! ### Data model (`src/types.ts`) -/

structure Item where
  blockchainId : String
  creationFee : String
  wearableName : Option String
  emoteName : Option String
deriving DecidableEq, Repr

structure Collection where
  id : String
  createdAt : Int
  name : String
  items : List Item
deriving DecidableEq, Repr

structure Curation where
  timestamp : Int
  txHash : String
  curatorId : String
  collection : Collection
deriving DecidableEq, Repr

structure CurationDetail where
  timestamp : Int
  txHash : String
  collectionId : String
  collectionName : String
  itemId : Option String
  itemName : Option String
  creationFee : ℚ
  curatorFee : ℚ
deriving DecidableEq, Repr

structure CuratorFeesSummary where
  curatorId : String
  curatorName : String
  paymentAddress : String
  totalFees : ℚ
  curationCount : Nat
  curations : List CurationDetail
deriving DecidableEq, Repr

structure CuratorInfo where
  name : String
  paymentAddress : String
deriving DecidableEq, Repr

inductive FeeError where
  | malformedFee (raw : String)
deriving DecidableEq, Repr

/-! ### Strings: ASCII lowercasing (models `String.prototype.toLowerCase`
on the ASCII addresses and hashes this program handles) -/

def lowerChar (c : Char) : Char :=
  if 'A' ≤ c ∧ c ≤ 'Z' then Char.ofNat (c.toNat + 32) else c

def toLowerStr (s : String) : String :=
  ⟨s.data.map lowerChar⟩

/-! ### Stable insertion sort (models `Array.prototype.sort` with a
comparator; ECMA-262 requires the sort to be stable) -/

def insertLe (le : α → α → Bool) (x : α) : List α → List α
  | [] => [x]
  | y :: ys => if le x y then x :: y :: ys else y :: insertLe le x ys

def sortLe (le : α → α → Bool) : List α → List α
  | [] => []
  | x :: xs => insertLe le x (sortLe le xs)

/-! ### Association lists with JavaScript `Map` semantics -/

def getEntry : List (String × β) → String → Option β
  | [], _ => none
  | (k, v) :: rest, key => if k = key then some v else getEntry rest key

def setEntry : List (String × β) → String → β → List (String × β)
  | [], key, v => [(key, v)]
  | (k, w) :: rest, key, v =>
    if k = key then (k, v) :: rest else (k, w) :: setEntry rest key v

/-! ### `BigInt(string)` (ECMAScript StringToBigInt) -/

def isJsSpace (c : Char) : Bool :=
  c = ' ' || c = '\t' || c = '\n' || c = '\r' || c = '\x0b' || c = '\x0c'

def digitVal (base : Nat) (c : Char) : Option Nat :=
  let v : Option Nat :=
    if '0' ≤ c ∧ c ≤ '9' then some (c.toNat - '0'.toNat)
    else if 'a' ≤ c ∧ c ≤ 'f' then some (c.toNat - 'a'.toNat + 10)
    else if 'A' ≤ c ∧ c ≤ 'F' then some (c.toNat - 'A'.toNat + 10)
    else none
  match v with
  | some n => if n < base then some n else none
  | none => none

def parseDigits (base : Nat) : List Char → Nat → Option Nat
  | [], acc => some acc
  | c :: cs, acc =>
    match digitVal base c with
    | some d => parseDigits base cs (acc * base + d)
    | none => none

def parseDigits1 (base : Nat) (cs : List Char) : Option Nat :=
  match cs with
  | [] => none
  | _ => parseDigits base cs 0

def trimJs (cs : List Char) : List Char :=
  ((cs.dropWhile isJsSpace).reverse.dropWhile isJsSpace).reverse

def stringToBigInt (s : String) : Option Int :=
  match trimJs s.data with
  | [] => some 0
  | '0' :: 'x' :: rest => (parseDigits1 16 rest).map Int.ofNat
  | '0' :: 'X' :: rest => (parseDigits1 16 rest).map Int.ofNat
  | '0' :: 'o' :: rest => (parseDigits1 8 rest).map Int.ofNat
  | '0' :: 'O' :: rest => (parseDigits1 8 rest).map Int.ofNat
  | '0' :: 'b' :: rest => (parseDigits1 2 rest).map Int.ofNat
  | '0' :: 'B' :: rest => (parseDigits1 2 rest).map Int.ofNat
  | '+' :: rest => (parseDigits1 10 rest).map Int.ofNat
  | '-' :: rest => (parseDigits1 10 rest).map (fun n => -(n : Int))
  | cs => (parseDigits1 10 cs).map Int.ofNat

/-! ### `convertBigNumberToEther` (CuratorFeesCalculator.tsx, lines
164-170): `BigInt(s)` divided by `10^18`; a malformed string throws -/

def convertBigNumberToEther (s : String) : Except FeeError ℚ :=
  match stringToBigInt s with
  | none => .error (.malformedFee s)
  | some n => .ok (Rat.divInt n 1000000000000000000)

/-! ### Fee computation for one curation (CuratorFeesCalculator.tsx,
lines 258-270): first item's `creationFee`, skipped when the item list
is empty or the fee string is empty or `"0"`; otherwise the curator fee
is a third of the creation fee -/

def computeFee (c : Curation) : Except FeeError (ℚ × ℚ) :=
  match c.collection.items with
  | [] => .ok (0, 0)
  | item :: _ =>
    if item.creationFee = "" ∨ item.creationFee = "0" then .ok (0, 0)
    else
      match convertBigNumberToEther item.creationFee with
      | .error e => .error e
      | .ok amt => .ok (amt, qDivInt amt 3)

/-! ### Item-id queues (CuratorFeesCalculator.tsx, lines 229-238 build
them; lines 272-300 consume them FIFO) -/

def buildQueues (itemIdMap : List (String × List (String × List String))) :
    List (String × List String) :=
  itemIdMap.foldl
    (fun qs p =>
      p.2.foldl (fun qs2 q => setEntry qs2 (p.1 ++ "-" ++ q.1) q.2) qs)
    []

def curationKey (c : Curation) : String :=
  toLowerStr c.txHash ++ "-" ++ toLowerStr c.collection.id

def resolveStep (queues : List (String × List String)) (key : String) :
    Option String × List (String × List String) :=
  match getEntry queues key with
  | some (x :: rest) =>
    ((if x = "" then none else some x), setEntry queues key rest)
  | some [] => (none, queues)
  | none => (none, queues)

def resolveSeq (queues : List (String × List String)) :
    List String → List (Option String)
  | [] => []
  | k :: ks =>
    let r := resolveStep queues k
    r.1 :: resolveSeq r.2 ks

/-! ### Item name lookup (CuratorFeesCalculator.tsx, lines 302-315);
`||` between the candidate names follows JS truthiness, where the empty
string is falsy -/

def jsTruthyOpt (o : Option String) : Option String :=
  match o with
  | some s => if s = "" then none else some s
  | none => none

def jsOr (a b : Option String) : Option String :=
  match jsTruthyOpt a with
  | some s => some s
  | none => jsTruthyOpt b

def itemNameFor (c : Curation) (itemId : Option String) : Option String :=
  match itemId with
  | none => none
  | some id =>
    if id = "" then none
    else
      match c.collection.items.find? (fun it => it.blockchainId = id) with
      | none => none
      | some it => jsOr it.wearableName it.emoteName

/-! ### Per-curator accumulation (CuratorFeesCalculator.tsx, lines
329-344): update-in-place for an existing curator, append for a new
one, exactly the JS `Map` behaviour -/

def updateFees (fees : List (String × CuratorFeesSummary))
    (curatorId : String) (info : CuratorInfo) (fee : ℚ)
    (d : CurationDetail) : List (String × CuratorFeesSummary) :=
  match fees with
  | [] => [(curatorId,
      ⟨curatorId, info.name, info.paymentAddress, fee, 1, [d]⟩)]
  | (k, s) :: rest =>
    if k = curatorId then
      (k, { s with
              totalFees := qAdd s.totalFees fee,
              curationCount := s.curationCount + 1,
              curations := s.curations ++ [d] }) :: rest
    else
      (k, s) :: updateFees rest curatorId info fee d

structure ProcState where
  queues : List (String × List String)
  fees : List (String × CuratorFeesSummary)
deriving DecidableEq, Repr

/-! ### One iteration of the `sortedCurations.forEach` body
(CuratorFeesCalculator.tsx, lines 250-346).  The fee computation runs
before the queue pop, matching the statement order of the source, so a
malformed fee aborts before the queue is touched.  A `CurationDetail`
is recorded only when the curation fee is strictly positive. -/

def processOne (directory : String → Option CuratorInfo) (st : ProcState)
    (c : Curation) : Except FeeError (ProcState × Option CurationDetail) :=
  let curatorId := toLowerStr c.curatorId
  let info := (directory curatorId).getD ⟨"Unknown", curatorId⟩
  match computeFee c with
  | .error e => .error e
  | .ok q =>
    let r := resolveStep st.queues (curationKey c)
    let itemId := r.1
    let itemName := itemNameFor c itemId
    if 0 < q.2 then
      let d : CurationDetail :=
        ⟨c.timestamp, c.txHash, c.collection.id, c.collection.name,
          itemId, itemName, q.1, q.2⟩
      .ok (⟨r.2, updateFees st.fees curatorId info q.2 d⟩, some d)
    else
      .ok (⟨r.2, st.fees⟩, none)

def runAll (directory : String → Option CuratorInfo) (st : ProcState) :
    List Curation → Except FeeError ProcState
  | [] => .ok st
  | c :: cs =>
    match processOne directory st c with
    | .error e => .error e
    | .ok p => runAll directory p.1 cs

/-! ### Window filter and temporal sort (CuratorFeesCalculator.tsx,
lines 176-182) -/

def leTimestamp (a b : Curation) : Bool :=
  decide (a.timestamp ≤ b.timestamp)

def cutoffPasses (c : Curation) : Bool :=
  decide (1658153853 < c.collection.createdAt)

def sortedCurationsOf (cs : List Curation) : List Curation :=
  (sortLe leTimestamp cs).filter cutoffPasses

/-! ### Final ranking (CuratorFeesCalculator.tsx, lines 348-350) -/

def geFees (a b : CuratorFeesSummary) : Bool :=
  decide (b.totalFees ≤ a.totalFees)

def hasPosFees (s : CuratorFeesSummary) : Bool :=
  decide (0 < s.totalFees)

/-- The whole `processCurations` transform (CuratorFeesCalculator.tsx,
lines 173-393), with the resolved item map — in the source the awaited
result of `extractItemIdsFromTxs` — supplied as an argument, and the
static curator directory supplied as a lookup function. -/
def processCurations (directory : String → Option CuratorInfo)
    (curations : List Curation)
    (itemIdMap : List (String × List (String × List String))) :
    Except FeeError (List CuratorFeesSummary) :=
  match runAll directory ⟨buildQueues itemIdMap, []⟩
      (sortedCurationsOf curations) with
  | .error e => .error e
  | .ok st =>
    .ok (sortLe geFees ((st.fees.map Prod.snd).filter hasPosFees))

/-! ### Curation Fetcher (`src/graphqlClient.ts`, lines 30-59).  The
page source is a parameter: `source skip` is the (possibly failing)
response to the query with offset `skip` and page size 1000.  The
unbounded `while (true)` loop is embedded with explicit fuel; `none`
means the fuel ran out before the loop terminated. -/

def fetchAllAux (source : Nat → Except String (List Curation)) :
    Nat → Nat → List Curation → Option (Except String (List Curation))
  | 0, _, _ => none
  | fuel + 1, skip, acc =>
    match source skip with
    | .error e => some (.error e)
    | .ok batch =>
      if batch.length = 0 then some (.ok acc)
      else if batch.length < 1000 then some (.ok (acc ++ batch))
      else fetchAllAux source fuel (skip + 1000) (acc ++ batch)

def fetchAllCurations (source : Nat → Except String (List Curation))
    (fuel : Nat) : Option (Except String (List Curation)) :=
  fetchAllAux source fuel 0 []

/-! ### Transaction Log Resolver (`src/transactionLogs.ts`).  The
receipt fetcher is a parameter; a thrown error is an `Except.error`.
The per-log scan recognizes ERC721 Transfer events (token id in topic
3) and the curation event (id in topic 2, else topic 1, else the first
32 bytes of the data payload); a `BigInt` conversion failure inside the
scan is an error that the per-transaction wrapper catches. -/

def TRANSFER_EVENT_SIGNATURE : String :=
  "0xddf252ad1be2c89b69c2b068fc378daa952ba7f163c4a11628f55a4df523b3ef"

def CURATION_EVENT_SIGNATURE : String :=
  "0x87a972ab2db2d47a0bbefe72cefc4fe5a38b1b9d2bc4b9f366b59fdb6dbd9581"

structure LogEntry where
  address : String
  topics : List String
  data : String
deriving DecidableEq, Repr

structure Receipt where
  logs : List LogEntry
deriving DecidableEq, Repr

def pushItem (m : List (String × List String)) (k v : String) :
    List (String × List String) :=
  match getEntry m k with
  | some ids => setEntry m k (ids ++ [v])
  | none => setEntry m k [v]

def jsTruthyStr (o : Option String) : Bool :=
  match o with
  | some s => decide (s ≠ "")
  | none => false

def scanLog (m : List (String × List String)) (log : LogEntry) :
    Except String (List (String × List String)) :=
  let firstTopic : Option String := log.topics.head?.map toLowerStr
  if firstTopic = some (toLowerStr TRANSFER_EVENT_SIGNATURE) ∧
      4 ≤ log.topics.length ∧ jsTruthyStr (log.topics.get? 3) = true then
    match log.topics.get? 3 with
    | none => .ok m
    | some t =>
      match stringToBigInt t with
      | none => .error t
      | some v => .ok (pushItem m (toLowerStr log.address) (toString v))
  else if firstTopic = some (toLowerStr CURATION_EVENT_SIGNATURE) then
    let src : Option String :=
      if 3 ≤ log.topics.length ∧ jsTruthyStr (log.topics.get? 2) = true
        then log.topics.get? 2
      else if 2 ≤ log.topics.length ∧
          jsTruthyStr (log.topics.get? 1) = true then log.topics.get? 1
      else if log.data ≠ "" ∧ log.data ≠ "0x" ∧ 66 ≤ log.data.length then
        some (String.mk ('0' :: 'x' :: (log.data.data.drop 2).take 64))
      else none
    match src with
    | none => .ok m
    | some t =>
      match stringToBigInt t with
      | none => .error t
      | some v =>
        if toString v ≠ "" then
          .ok (pushItem m (toLowerStr log.address) (toString v))
        else .ok m
  else .ok m

def scanLogs : List (String × List String) → List LogEntry →
    Except String (List (String × List String))
  | m, [] => .ok m
  | m, log :: rest =>
    match scanLog m log with
    | .error e => .error e
    | .ok m2 => scanLogs m2 rest

/-- Per-transaction extraction, `extractItemIdsFromTx`
(transactionLogs.ts, lines 24-128): the whole
body sits in a `try`/`catch` that turns any error — a failed receipt
fetch or a failure while parsing the logs — into an empty map. -/
def extractItemIdsFromTx (fetchReceipt : String → Except String Receipt)
    (txHash : String) : List (String × List String) :=
  match fetchReceipt txHash with
  | .error _ => []
  | .ok r =>
    match scanLogs [] r.logs with
    | .error _ => []
    | .ok m => m

/-- Batch extraction, `extractItemIdsFromTxs` (transactionLogs.ts,
lines 135-198): every
hash gets an entry in the result map; the batching (size 10) and
inter-batch delay affect timing only, not the returned value. -/
def extractItemIdsFromTxs (fetchReceipt : String → Except String Receipt)
    (txHashes : List String) :
    List (String × List (String × List String)) :=
  txHashes.map (fun h => (h, extractItemIdsFromTx fetchReceipt h))

/-! ### Concrete inputs used in the worked examples below -/


def dir0 : String → Option CuratorInfo := fun _ => none

def item1 : Item := ⟨"I1", "3000000000000000000", none, none⟩

def coll1 : Collection := ⟨"0xC", 2000000000, "Col", [item1]⟩

def cur1 : Curation := ⟨100, "0xA", "U1", coll1⟩

def cur2 : Curation := ⟨200, "0xA", "U1", coll1⟩

/-- Resolved item map with a single event: item `I1` for (0xa, 0xc). -/
def map1 : List (String × List (String × List String)) :=
  [("0xa", [("0xc", ["I1"])])]

/-- Resolved item map where both events of the transaction report the
same item id `I1`. -/
def map2 : List (String × List (String × List String)) :=
  [("0xa", [("0xc", ["I1", "I1"])])]

/-- A curation inside the window whose first item has an unparsable
creation-fee string. -/
def cbad : Curation :=
  ⟨100, "0xdead", "U1", ⟨"0xC", 2000000000, "Col", [⟨"1", "abc", none, none⟩]⟩⟩

def detail1 : CurationDetail :=
  ⟨100, "0xA", "0xC", "Col", some "I1", none, 3, 1⟩

def summary1 : CuratorFeesSummary :=
  ⟨"u1", "Unknown", "u1", 1, 1, [detail1]⟩

/-- A curation inside the window whose collection has no items at all. -/
def curNoItems : Curation :=
  ⟨100, "0xE", "U2", ⟨"0xD", 2000000000, "Empty", []⟩⟩

/-- A page source whose first page is already short: one curation. -/
def source1 : Nat → Except String (List Curation) := fun _ => .ok [cur1]

/-- A receipt with one ERC721 Transfer event: token id 5 emitted by
contract `0xCol`. -/
def receiptT : Receipt :=
  ⟨[⟨"0xCol", [TRANSFER_EVENT_SIGNATURE, "0x01", "0x02", "0x05"], "0x"⟩]⟩

/-- A receipt fetcher that fails for `0xbad` and answers `receiptT`
otherwise. -/
def fetchR : String → Except String Receipt :=
  fun h => if h = "0xbad" then .error "receipt not found" else .ok receiptT

/-- Invariant carried by the per-curator accumulator: every stored
summary counts its detail records, totals exactly the sum of their
curator fees, and stores only strictly positive fee records. -/
def feesInv (fees : List (String × CuratorFeesSummary)) : Prop :=
  ∀ p ∈ fees,
    p.2.curationCount = p.2.curations.length ∧
    p.2.totalFees = (p.2.curations.map CurationDetail.curatorFee).sum ∧
    ∀ d ∈ p.2.curations, 0 < d.curatorFee ∧ 0 < d.creationFee

/-! # Theorems -/

theorem qAdd_eq (a b : ℚ) : qAdd a b = a + b := by
  unfold qAdd
  have ha : (a.den : ℚ) ≠ 0 := by exact_mod_cast a.den_nz
  have hb : (b.den : ℚ) ≠ 0 := by exact_mod_cast b.den_nz
  rw [Rat.divInt_eq_div]
  push_cast
  conv_rhs => rw [← Rat.num_div_den a, ← Rat.num_div_den b]
  field_simp

theorem qDivInt_eq (a : ℚ) (b : ℤ) : qDivInt a b = a / (b : ℚ) := by
  unfold qDivInt
  rcases eq_or_ne b 0 with hb | hb
  · simp [hb]
  · rw [Rat.divInt_eq_div]
    push_cast
    rw [div_mul_eq_div_div_swap, Rat.num_div_den]

/-! ### Lemmas about the stable insertion sort -/

theorem mem_insertLe (le : α → α → Bool) (x a : α) (l : List α) :
    a ∈ insertLe le x l ↔ a = x ∨ a ∈ l := by
  induction l with
  | nil => simp [insertLe]
  | cons y ys ih =>
    rw [insertLe]
    by_cases h : le x y
    · rw [if_pos h]
      simp only [List.mem_cons]
    · rw [if_neg h]
      simp only [List.mem_cons, ih]
      tauto

theorem mem_sortLe (le : α → α → Bool) (a : α) (l : List α) :
    a ∈ sortLe le l ↔ a ∈ l := by
  induction l with
  | nil => simp [sortLe]
  | cons x xs ih =>
    rw [sortLe, mem_insertLe, ih]
    simp

theorem insertLe_all (le : α → α → Bool) (x : α) (l : List α)
    (h : ∀ z ∈ l, le x z = true) : insertLe le x l = x :: l := by
  cases l with
  | nil => rfl
  | cons y ys =>
    rw [insertLe, if_pos (h y (List.mem_cons_self y ys))]

theorem pairwise_insertLe (le : α → α → Bool)
    (htot : ∀ a b, le a b = false → le b a = true)
    (htr : ∀ a b c, le a b = true → le b c = true → le a c = true)
    (x : α) (l : List α) (hl : l.Pairwise (fun a b => le a b = true)) :
    (insertLe le x l).Pairwise (fun a b => le a b = true) := by
  induction l with
  | nil => simp [insertLe]
  | cons y ys ih =>
    rcases List.pairwise_cons.mp hl with ⟨hy, hys⟩
    rw [insertLe]
    by_cases h : le x y
    · rw [if_pos h]
      refine List.pairwise_cons.mpr ⟨?_, hl⟩
      intro z hz
      rcases List.mem_cons.mp hz with rfl | hz'
      · exact h
      · exact htr x y z h (hy z hz')
    · rw [if_neg h]
      refine List.pairwise_cons.mpr ⟨?_, ih hys⟩
      intro z hz
      rcases (mem_insertLe le x z ys).mp hz with hzx | hz'
      · rw [hzx]
        exact htot x y (Bool.eq_false_iff.mpr h)
      · exact hy z hz'

theorem pairwise_sortLe (le : α → α → Bool)
    (htot : ∀ a b, le a b = false → le b a = true)
    (htr : ∀ a b c, le a b = true → le b c = true → le a c = true)
    (l : List α) :
    (sortLe le l).Pairwise (fun a b => le a b = true) := by
  induction l with
  | nil => simp [sortLe]
  | cons x xs ih => exact pairwise_insertLe le htot htr x _ ih

theorem filter_insertLe (le : α → α → Bool) (p : α → Bool)
    (htr : ∀ a b c, le a b = true → le b c = true → le a c = true)
    (x : α) (l : List α) (hl : l.Pairwise (fun a b => le a b = true)) :
    (insertLe le x l).filter p =
      if p x then insertLe le x (l.filter p) else l.filter p := by
  induction l with
  | nil =>
    by_cases hp : p x <;> simp [insertLe, List.filter, hp]
  | cons y ys ih =>
    rcases List.pairwise_cons.mp hl with ⟨hy, hys⟩
    rw [insertLe]
    by_cases h : le x y
    · rw [if_pos h]
      by_cases hp : p x
      · have hall : ∀ z ∈ (y :: ys).filter p, le x z = true := by
          intro z hz
          have hz' := List.mem_of_mem_filter hz
          rcases List.mem_cons.mp hz' with hzy | hz''
          · rw [hzy]
            exact h
          · exact htr x y z h (hy z hz'')
        rw [if_pos hp, List.filter_cons_of_pos hp,
          insertLe_all le x _ hall]
      · rw [if_neg hp, List.filter_cons_of_neg hp]
    · rw [if_neg h]
      by_cases hpy : p y
      · rw [List.filter_cons_of_pos hpy, List.filter_cons_of_pos hpy,
          ih hys]
        by_cases hp : p x
        · rw [if_pos hp, if_pos hp, insertLe, if_neg h]
        · rw [if_neg hp, if_neg hp]
      · rw [List.filter_cons_of_neg hpy, List.filter_cons_of_neg hpy,
          ih hys]

theorem filter_sortLe (le : α → α → Bool) (p : α → Bool)
    (htot : ∀ a b, le a b = false → le b a = true)
    (htr : ∀ a b c, le a b = true → le b c = true → le a c = true)
    (l : List α) :
    (sortLe le l).filter p = sortLe le (l.filter p) := by
  induction l with
  | nil => rfl
  | cons x xs ih =>
    rw [sortLe,
      filter_insertLe le p htr x _ (pairwise_sortLe le htot htr xs), ih,
      List.filter_cons]
    by_cases hp : p x
    · rw [if_pos hp, if_pos hp, sortLe]
    · rw [if_neg hp, if_neg hp]

/-! ### Lemmas about map entries and the resolution queue -/

theorem getEntry_setEntry (m : List (String × β)) (k : String) (v : β) :
    getEntry (setEntry m k v) k = some v := by
  induction m with
  | nil => simp [setEntry, getEntry]
  | cons p rest ih =>
    obtain ⟨k', w⟩ := p
    unfold setEntry
    by_cases h : k' = k
    · simp [getEntry, h]
    · simp [getEntry, h, ih]

/-- C3: item resolution is FIFO per (lowercased transaction hash,
lowercased collection id).  If the queue for a curation's key holds
`ids`, then `n` curations of that same (tx, collection) pair, processed
in order, are assigned the first `n` ids of the queue in order, and
`none` once the queue is exhausted — so each resolved id is consumed by
at most one curation (the id at position `i` goes only to the `i`-th
curation of that key).  With `ids = [A, B]` and `n = 3` this gives
`[some A, some B, none]`. -/
theorem c3_fifo_resolution (queues : List (String × List String))
    (c : Curation) (ids : List String) (n : Nat)
    (hq : getEntry queues (curationKey c) = some ids)
    (hids : ∀ id ∈ ids, id ≠ "") :
    resolveSeq queues (List.replicate n (curationKey c)) =
      (ids.take n).map some ++ List.replicate (n - ids.length) none := by
  induction n generalizing queues ids with
  | zero => simp [resolveSeq]
  | succ n ih =>
    cases ids with
    | nil =>
      have hstep : resolveStep queues (curationKey c) = (none, queues) := by
        simp [resolveStep, hq]
      have ihn := ih queues [] hq hids
      simp only [List.take_nil, List.map_nil, List.nil_append] at ihn ⊢
      simp only [List.replicate_succ, resolveSeq, hstep]
      rw [ihn]
      simp [List.replicate_succ]
    | cons x rest =>
      have hx : x ≠ "" := hids x (List.mem_cons_self x rest)
      have hstep : resolveStep queues (curationKey c) =
          (some x, setEntry queues (curationKey c) rest) := by
        simp [resolveStep, hq, hx]
      have ihn := ih (setEntry queues (curationKey c) rest) rest
        (getEntry_setEntry queues (curationKey c) rest)
        (fun id hid => hids id (List.mem_cons_of_mem x hid))
      simp only [List.replicate_succ, resolveSeq, hstep]
      rw [ihn]
      simp [Nat.succ_sub_succ]

/-- Witness for `c3_fifo_resolution`: a queue `[A, B]` for the key of a
concrete curation, consumed by three curations of that pair, yields
`[some A, some B, none]`. -/
theorem c3_fifo_resolution_witness :
    resolveSeq [("0xa-0xc", ["A", "B"])]
        (List.replicate 3 (curationKey cur1)) =
      [some "A", some "B", none] := by
  have h := c3_fifo_resolution [("0xa-0xc", ["A", "B"])] cur1 ["A", "B"] 3
    (by decide) (by decide)
  simpa using h

/-- C2: for the two-curation scenario (same curator `U1`, same
transaction `0xA`, collection `0xC`, timestamps 100 and 200, collection
created at 2000000000, creation fee `"3000000000000000000"`) with a
single resolved event `I1`, the first curation resolves to `I1` with
curator fee 1, the second resolves to `null` because the queue is
exhausted and — not being treated as a duplicate — also earns curator
fee 1; the single summary for `u1` has `totalFees = 2` and
`curationCount = 2`. -/
theorem c2_scenario_queue_exhausted_not_deduplicated :
    processCurations dir0 [cur1, cur2] map1 =
      .ok [⟨"u1", "Unknown", "u1", 2, 2,
        [⟨100, "0xA", "0xC", "Col", some "I1", none, 3, 1⟩,
         ⟨200, "0xA", "0xC", "Col", none, none, 3, 1⟩]⟩] := by decide

/-- C1 (behaviour of the code at the failing input): when the queue for
(0xa, 0xc) holds `[I1, I1]`, both curations resolve to the same item id
`I1`, yet the second — a duplicate curation of the same resolved item —
is recorded with `curatorFee = 1` (not 0) and is included in the
curator's `totalFees`, which ends at 2 rather than 1.  `processCurations`
has no duplicate detection at all, contradicting the repository's own
README and the specification. -/
theorem c1_duplicate_curation_gets_full_fee :
    processCurations dir0 [cur1, cur2] map2 =
      .ok [⟨"u1", "Unknown", "u1", 2, 2,
        [⟨100, "0xA", "0xC", "Col", some "I1", none, 3, 1⟩,
         ⟨200, "0xA", "0xC", "Col", some "I1", none, 3, 1⟩]⟩] := by decide

theorem leTimestamp_total (a b : Curation) (h : leTimestamp a b = false) :
    leTimestamp b a = true := by
  simp only [leTimestamp, decide_eq_false_iff_not, decide_eq_true_eq] at *
  omega

theorem leTimestamp_trans (a b c : Curation) (h1 : leTimestamp a b = true)
    (h2 : leTimestamp b c = true) : leTimestamp a c = true := by
  simp only [leTimestamp, decide_eq_true_eq] at *
  omega

theorem geFees_total (a b : CuratorFeesSummary) (h : geFees a b = false) :
    geFees b a = true := by
  simp only [geFees, decide_eq_false_iff_not, decide_eq_true_eq] at *
  exact le_of_lt (lt_of_not_le h)

theorem geFees_trans (a b c : CuratorFeesSummary) (h1 : geFees a b = true)
    (h2 : geFees b c = true) : geFees a c = true := by
  simp only [geFees, decide_eq_true_eq] at *
  exact le_trans h2 h1

theorem sortedCurationsOf_filter (cs : List Curation) :
    sortedCurationsOf (cs.filter cutoffPasses) = sortedCurationsOf cs := by
  unfold sortedCurationsOf
  rw [filter_sortLe leTimestamp cutoffPasses leTimestamp_total
      leTimestamp_trans cs,
    filter_sortLe leTimestamp cutoffPasses leTimestamp_total
      leTimestamp_trans (cs.filter cutoffPasses),
    List.filter_filter]
  simp

/-- C4: curations whose `collectionCreatedAt` is at or before the cutoff
`1658153853` contribute nothing whatsoever to the output: running
`processCurations` on the input is the same as running it on the input
with all such curations removed beforehand, so none of their data
appears in any summary's `curations` list, `totalFees`, or
`curationCount`. -/
theorem c4_cutoff_filter (dir : String → Option CuratorInfo)
    (curs : List Curation)
    (m : List (String × List (String × List String))) :
    processCurations dir curs m =
      processCurations dir (curs.filter cutoffPasses) m := by
  unfold processCurations
  rw [sortedCurationsOf_filter]

theorem updateFees_feesInv (fees : List (String × CuratorFeesSummary))
    (cid : String) (info : CuratorInfo) (fee : ℚ) (d : CurationDetail)
    (hinv : feesInv fees) (hfee : 0 < fee) (hdf : d.curatorFee = fee)
    (hdc : 0 < d.creationFee) :
    feesInv (updateFees fees cid info fee d) := by
  induction fees with
  | nil =>
    intro p hp
    simp only [updateFees, List.mem_singleton] at hp
    subst hp
    refine ⟨rfl, by simp [hdf], ?_⟩
    intro d' hd'
    simp only [List.mem_singleton] at hd'
    subst hd'
    exact ⟨hdf ▸ hfee, hdc⟩
  | cons q rest ih =>
    obtain ⟨k, s⟩ := q
    have hhead := hinv (k, s) (List.mem_cons_self _ _)
    have hrest : feesInv rest := fun p hp =>
      hinv p (List.mem_cons_of_mem _ hp)
    rw [updateFees]
    by_cases hk : k = cid
    · rw [if_pos hk]
      intro p hp
      rcases List.mem_cons.mp hp with hph | hpr
      · subst hph
        obtain ⟨hc, ht, hd⟩ := hhead
        dsimp only at hc ht hd ⊢
        refine ⟨?_, ?_, ?_⟩
        · simp [hc]
        · simp only [qAdd_eq, ht, List.map_append, List.sum_append,
            List.map_cons, List.map_nil, List.sum_cons, List.sum_nil,
            hdf]
          ring
        · intro d' hd'
          rcases List.mem_append.mp hd' with hl | hr
          · exact hd d' hl
          · simp only [List.mem_singleton] at hr
            subst hr
            exact ⟨hdf ▸ hfee, hdc⟩
      · exact hinv p (List.mem_cons_of_mem _ hpr)
    · rw [if_neg hk]
      intro p hp
      rcases List.mem_cons.mp hp with hph | hpr
      · subst hph
        exact hhead
      · exact ih hrest p hpr

theorem computeFee_pos (c : Curation) (q : ℚ × ℚ)
    (h : computeFee c = .ok q) (hpos : 0 < q.2) : 0 < q.1 := by
  unfold computeFee at h
  cases hitems : c.collection.items with
  | nil =>
    rw [hitems] at h
    simp only [Except.ok.injEq] at h
    subst h
    norm_num at hpos
  | cons item rest =>
    rw [hitems] at h
    dsimp only at h
    by_cases hg : item.creationFee = "" ∨ item.creationFee = "0"
    · rw [if_pos hg] at h
      simp only [Except.ok.injEq] at h
      subst h
      norm_num at hpos
    · rw [if_neg hg] at h
      cases hcv : convertBigNumberToEther item.creationFee with
      | error e => rw [hcv] at h; exact absurd h (by simp)
      | ok amt =>
        rw [hcv] at h
        simp only [Except.ok.injEq] at h
        subst h
        simp only [qDivInt_eq] at hpos
        have h3 : ((3 : ℤ) : ℚ) = 3 := by norm_num
        rw [h3] at hpos
        rcases div_pos_iff.mp hpos with ⟨ha, _⟩ | ⟨_, hc3⟩
        · exact ha
        · norm_num at hc3

theorem processOne_feesInv (dir : String → Option CuratorInfo)
    (st : ProcState) (c : Curation) (st2 : ProcState)
    (od : Option CurationDetail)
    (h : processOne dir st c = .ok (st2, od)) (hinv : feesInv st.fees) :
    feesInv st2.fees := by
  unfold processOne at h
  cases hcf : computeFee c with
  | error e => rw [hcf] at h; exact absurd h (by simp)
  | ok q =>
    rw [hcf] at h
    dsimp only at h
    by_cases hpos : 0 < q.2
    · rw [if_pos hpos] at h
      simp only [Except.ok.injEq, Prod.mk.injEq] at h
      have hst : st2.fees = updateFees st.fees (toLowerStr c.curatorId)
          ((dir (toLowerStr c.curatorId)).getD
            ⟨"Unknown", toLowerStr c.curatorId⟩) q.2
          ⟨c.timestamp, c.txHash, c.collection.id, c.collection.name,
            (resolveStep st.queues (curationKey c)).1,
            itemNameFor c (resolveStep st.queues (curationKey c)).1,
            q.1, q.2⟩ := by
        rw [← h.1]
      rw [hst]
      exact updateFees_feesInv _ _ _ _ _ hinv hpos rfl
        (computeFee_pos c q hcf hpos)
    · rw [if_neg hpos] at h
      simp only [Except.ok.injEq, Prod.mk.injEq] at h
      have hst : st2.fees = st.fees := by rw [← h.1]
      rw [hst]
      exact hinv

theorem runAll_feesInv (dir : String → Option CuratorInfo) :
    ∀ (cs : List Curation) (st st2 : ProcState),
      runAll dir st cs = .ok st2 → feesInv st.fees → feesInv st2.fees := by
  intro cs
  induction cs with
  | nil =>
    intro st st2 h hinv
    rw [runAll] at h
    simp only [Except.ok.injEq] at h
    subst h
    exact hinv
  | cons c cs ih =>
    intro st st2 h hinv
    rw [runAll] at h
    cases hp : processOne dir st c with
    | error e => rw [hp] at h; exact absurd h (by simp)
    | ok pr =>
      rw [hp] at h
      exact ih pr.1 st2 h
        (processOne_feesInv dir st c pr.1 pr.2 (by rw [hp]) hinv)

theorem out_summary_inv (dir : String → Option CuratorInfo)
    (curs : List Curation)
    (m : List (String × List (String × List String)))
    (out : List CuratorFeesSummary)
    (h : processCurations dir curs m = .ok out) :
    ∀ s ∈ out,
      s.curationCount = s.curations.length ∧
      s.totalFees = (s.curations.map CurationDetail.curatorFee).sum ∧
      ∀ d ∈ s.curations, 0 < d.curatorFee ∧ 0 < d.creationFee := by
  unfold processCurations at h
  cases hr : runAll dir ⟨buildQueues m, []⟩ (sortedCurationsOf curs) with
  | error e => rw [hr] at h; exact absurd h (by simp)
  | ok st =>
    rw [hr] at h
    simp only [Except.ok.injEq] at h
    subst h
    intro s hs
    rw [mem_sortLe] at hs
    have hs2 := List.mem_of_mem_filter hs
    rcases List.mem_map.mp hs2 with ⟨p, hp, hps⟩
    subst hps
    have hinv := runAll_feesInv dir _ _ _ hr (by intro p hp; simp at hp)
    exact hinv p hp

/-- C5: conservation — for every summary the engine produces,
`curationCount` equals the length of its `curations` list, and
`totalFees` equals the sum of the nonzero `curatorFee` values among
those entries. -/
theorem c5_conservation (dir : String → Option CuratorInfo)
    (curs : List Curation)
    (m : List (String × List (String × List String)))
    (out : List CuratorFeesSummary)
    (h : processCurations dir curs m = .ok out)
    (s : CuratorFeesSummary) (hs : s ∈ out) :
    s.curationCount = s.curations.length ∧
    s.totalFees =
      ((s.curations.map CurationDetail.curatorFee).filter
        (fun q => decide (q ≠ 0))).sum := by
  obtain ⟨h1, h2, h3⟩ := out_summary_inv dir curs m out h s hs
  refine ⟨h1, ?_⟩
  rw [h2]
  congr 1
  refine (List.filter_eq_self.mpr ?_).symm
  intro q hq
  rcases List.mem_map.mp hq with ⟨d, hd, hdq⟩
  subst hdq
  exact decide_eq_true (ne_of_gt (h3 d hd).1)

/-- Witness for `c5_conservation` at the one-curation input: the single
summary has `curationCount` 1 = 1 detail record and `totalFees` equal
to the filtered fee sum. -/
theorem c5_conservation_witness :
    summary1.curationCount = summary1.curations.length ∧
    summary1.totalFees =
      ((summary1.curations.map CurationDetail.curatorFee).filter
        (fun q => decide (q ≠ 0))).sum :=
  c5_conservation dir0 [cur1] map1 [summary1] (by decide) summary1
    (by decide)

/-- C9: final summary shape — the returned list contains no curator
whose `totalFees` is zero, and it is sorted in descending order of
`totalFees`. -/
theorem c9_final_shape (dir : String → Option CuratorInfo)
    (curs : List Curation)
    (m : List (String × List (String × List String)))
    (out : List CuratorFeesSummary)
    (h : processCurations dir curs m = .ok out) :
    (∀ s ∈ out, s.totalFees ≠ 0) ∧
    out.Pairwise (fun a b => b.totalFees ≤ a.totalFees) := by
  unfold processCurations at h
  cases hr : runAll dir ⟨buildQueues m, []⟩ (sortedCurationsOf curs) with
  | error e => rw [hr] at h; exact absurd h (by simp)
  | ok st =>
    rw [hr] at h
    simp only [Except.ok.injEq] at h
    subst h
    constructor
    · intro s hs
      rw [mem_sortLe] at hs
      have hpos := List.of_mem_filter hs
      simp only [hasPosFees, decide_eq_true_eq] at hpos
      exact ne_of_gt hpos
    · have hp := pairwise_sortLe geFees geFees_total geFees_trans
        ((st.fees.map Prod.snd).filter hasPosFees)
      refine hp.imp ?_
      intro a b hab
      simpa [geFees, decide_eq_true_eq] using hab

/-- Witness for `c9_final_shape` at the one-curation input. -/
theorem c9_final_shape_witness :
    (∀ s ∈ [summary1], s.totalFees ≠ 0) ∧
    List.Pairwise (fun a b => b.totalFees ≤ a.totalFees) [summary1] :=
  c9_final_shape dir0 [cur1] map1 [summary1] (by decide)

/-- C10: strict positivity of the audit trail — every recorded
`CurationDetail` has strictly positive `curatorFee` and `creationFee`;
and a curation whose collection has an empty items list, or whose first
item's `creationFee` is the empty string or `"0"`, produces no
`CurationDetail` at all (the processing step returns `none` instead of
recording a zero-fee entry). -/
theorem c10_audit_trail_strict_positivity :
    (∀ (dir : String → Option CuratorInfo) (curs : List Curation)
        (m : List (String × List (String × List String)))
        (out : List CuratorFeesSummary),
      processCurations dir curs m = .ok out →
      ∀ s ∈ out, ∀ d ∈ s.curations,
        0 < d.curatorFee ∧ 0 < d.creationFee) ∧
    (∀ (dir : String → Option CuratorInfo) (st : ProcState)
        (c : Curation),
      c.collection.items = [] ∨
        (c.collection.items.head?).map Item.creationFee = some "" ∨
        (c.collection.items.head?).map Item.creationFee = some "0" →
      ∃ st2, processOne dir st c = .ok (st2, none)) := by
  constructor
  · intro dir curs m out h s hs d hd
    exact (out_summary_inv dir curs m out h s hs).2.2 d hd
  · intro dir st c hc
    have hcf : computeFee c = .ok (0, 0) := by
      rcases hc with hnil | hfee | hfee
      · unfold computeFee
        rw [hnil]
      · cases hitems : c.collection.items with
        | nil => unfold computeFee; rw [hitems]
        | cons item rest =>
          rw [hitems] at hfee
          simp only [List.head?_cons, Option.map_some',
            Option.some.injEq] at hfee
          unfold computeFee
          rw [hitems]
          dsimp only
          rw [if_pos (Or.inl hfee)]
      · cases hitems : c.collection.items with
        | nil => unfold computeFee; rw [hitems]
        | cons item rest =>
          rw [hitems] at hfee
          simp only [List.head?_cons, Option.map_some',
            Option.some.injEq] at hfee
          unfold computeFee
          rw [hitems]
          dsimp only
          rw [if_pos (Or.inr hfee)]
    refine ⟨⟨(resolveStep st.queues (curationKey c)).2, st.fees⟩, ?_⟩
    unfold processOne
    rw [hcf]
    norm_num

/-- Witness for `c10_audit_trail_strict_positivity`: the concrete detail
recorded for `cur1` has positive fees, and processing a curation with an
empty items list records nothing. -/
theorem c10_audit_trail_strict_positivity_witness :
    (0 < detail1.curatorFee ∧ 0 < detail1.creationFee) ∧
    ∃ st2, processOne dir0 ⟨[], []⟩ curNoItems = .ok (st2, none) :=
  ⟨c10_audit_trail_strict_positivity.1 dir0 [cur1] map1 [summary1]
      (by decide) summary1 (by decide) detail1 (by decide),
    c10_audit_trail_strict_positivity.2 dir0 ⟨[], []⟩ curNoItems
      (Or.inl rfl)⟩

theorem processOne_error_of_computeFee (dir : String → Option CuratorInfo)
    (st : ProcState) (c : Curation) (e : FeeError)
    (h : computeFee c = .error e) : processOne dir st c = .error e := by
  unfold processOne
  rw [h]

theorem computeFee_malformed (c : Curation) (s : String)
    (hhead : (c.collection.items.head?).map Item.creationFee = some s)
    (hne : s ≠ "") (hn0 : s ≠ "0") (hparse : stringToBigInt s = none) :
    computeFee c = .error (.malformedFee s) := by
  cases hitems : c.collection.items with
  | nil => rw [hitems] at hhead; simp at hhead
  | cons item rest =>
    rw [hitems] at hhead
    simp only [List.head?_cons, Option.map_some', Option.some.injEq]
      at hhead
    subst hhead
    unfold computeFee
    rw [hitems]
    dsimp only
    rw [if_neg (by tauto)]
    unfold convertBigNumberToEther
    rw [hparse]

theorem runAll_error_of_mem (dir : String → Option CuratorInfo) :
    ∀ (cs : List Curation) (st : ProcState),
      (∃ c ∈ cs, ∃ e, ∀ st' : ProcState,
        processOne dir st' c = .error e) →
      ∃ e2, runAll dir st cs = .error e2 := by
  intro cs
  induction cs with
  | nil =>
    intro st h
    rcases h with ⟨c, hc, _⟩
    exact absurd hc (List.not_mem_nil c)
  | cons c' cs ih =>
    intro st h
    rcases h with ⟨c, hc, e, he⟩
    rcases List.mem_cons.mp hc with hcc | hcs
    · subst hcc
      refine ⟨e, ?_⟩
      rw [runAll, he st]
    · cases hp : processOne dir st c' with
      | error e' =>
        refine ⟨e', ?_⟩
        rw [runAll, hp]
      | ok pr =>
        rcases ih pr.1 ⟨c, hcs, e, he⟩ with ⟨e2, he2⟩
        refine ⟨e2, ?_⟩
        rw [runAll, hp]
        exact he2

theorem mem_sortedCurationsOf (curs : List Curation) (c : Curation)
    (hmem : c ∈ curs) (hcut : cutoffPasses c = true) :
    c ∈ sortedCurationsOf curs :=
  List.mem_filter.mpr ⟨(mem_sortLe leTimestamp c curs).mpr hmem, hcut⟩

/-- C6 counterexample: with the single curation `cbad` (transaction hash
`0xdead`, first item creation fee `"abc"`), the computation does fail as
a whole, but the signalled error carries the offending fee string
`"abc"` — the data of the thrown `BigInt` conversion error — and not
the transaction hash `0xdead` that the claim says it names. -/
theorem c6_counterexample_error_does_not_name_tx :
    processCurations dir0 [cbad] [] = .error (.malformedFee "abc") ∧
    cbad.txHash = "0xdead" ∧ "abc" ≠ "0xdead" ∧
    processCurations dir0 [cbad] [] ≠
      .error (.malformedFee cbad.txHash) := by
  exact ⟨by decide, rfl, by decide, by decide⟩

/-- C6 (amended): if some curation inside the cutoff window has a first
item whose creation-fee string is nonempty, not `"0"`, and rejected by
the JavaScript `BigInt` string grammar, the whole computation fails with
a malformed-fee error (carrying an offending fee string, not the
transaction hash), and no partial per-curator totals are returned. -/
theorem c6_amended_malformed_fee_aborts
    (dir : String → Option CuratorInfo) (curs : List Curation)
    (m : List (String × List (String × List String)))
    (c : Curation) (s : String)
    (hmem : c ∈ curs) (hcut : cutoffPasses c = true)
    (hhead : (c.collection.items.head?).map Item.creationFee = some s)
    (hne : s ≠ "") (hn0 : s ≠ "0") (hparse : stringToBigInt s = none) :
    ∃ raw, processCurations dir curs m = .error (.malformedFee raw) := by
  have hcf := computeFee_malformed c s hhead hne hn0 hparse
  have hrun := runAll_error_of_mem dir (sortedCurationsOf curs)
    ⟨buildQueues m, []⟩
    ⟨c, mem_sortedCurationsOf curs c hmem hcut, .malformedFee s,
      fun st' => processOne_error_of_computeFee dir st' c _ hcf⟩
  rcases hrun with ⟨e2, he2⟩
  cases e2 with
  | malformedFee raw =>
    refine ⟨raw, ?_⟩
    unfold processCurations
    rw [he2]

/-- Witness for `c6_amended_malformed_fee_aborts` at the concrete bad
input `cbad`. -/
theorem c6_amended_malformed_fee_aborts_witness :
    ∃ raw, processCurations dir0 [cbad] [] = .error (.malformedFee raw) :=
  c6_amended_malformed_fee_aborts dir0 [cbad] [] cbad "abc"
    (by decide) (by decide) (by decide) (by decide) (by decide) (by decide)

theorem fetchAllAux_run (source : Nat → Except String (List Curation)) :
    ∀ (n : Nat) (B : Nat → List Curation) (skip : Nat)
      (acc : List Curation) (fuel : Nat),
      (∀ k, k < n →
        source (skip + 1000 * k) = .ok (B k) ∧ (B k).length = 1000) →
      source (skip + 1000 * n) = .ok (B n) →
      (B n).length < 1000 →
      n < fuel →
      fetchAllAux source fuel skip acc =
        some (.ok (acc ++ (List.range (n + 1)).flatMap B)) := by
  intro n
  induction n with
  | zero =>
    intro B skip acc fuel hfull hlast hshort hfuel
    cases fuel with
    | zero => omega
    | succ f =>
      rw [fetchAllAux]
      simp only [Nat.mul_zero, Nat.add_zero] at hlast
      rw [hlast]
      dsimp only
      by_cases h0 : (B 0).length = 0
      · rw [if_pos h0]
        have hB : B 0 = [] := List.length_eq_zero.mp h0
        simp [hB, List.flatMap_cons]
      · rw [if_neg h0, if_pos hshort]
        have hr1 : List.range 1 = [0] := rfl
        simp [hr1, List.flatMap_cons]
  | succ n ih =>
    intro B skip acc fuel hfull hlast hshort hfuel
    cases fuel with
    | zero => omega
    | succ f =>
      obtain ⟨h0, hlen0⟩ := hfull 0 (Nat.succ_pos n)
      rw [fetchAllAux]
      simp only [Nat.mul_zero, Nat.add_zero] at h0
      rw [h0]
      dsimp only
      rw [if_neg (by omega), if_neg (by omega)]
      have hfull' : ∀ k, k < n →
          source (skip + 1000 + 1000 * k) = .ok (B (k + 1)) ∧
          (B (k + 1)).length = 1000 := by
        intro k hk
        have harith : skip + 1000 + 1000 * k = skip + 1000 * (k + 1) := by
          ring
        rw [harith]
        exact hfull (k + 1) (by omega)
      have hlast' : source (skip + 1000 + 1000 * n) = .ok (B (n + 1)) := by
        have harith : skip + 1000 + 1000 * n = skip + 1000 * (n + 1) := by
          ring
        rw [harith]
        exact hlast
      have ihr := ih (fun k => B (k + 1)) (skip + 1000) (acc ++ B 0) f
        hfull' hlast' hshort (by omega)
      rw [ihr]
      congr 1
      congr 1
      rw [List.append_assoc]
      congr 1
      conv_rhs => rw [List.range_succ_eq_map]
      rw [List.flatMap_cons, List.flatMap_map]

/-- C7: pagination of `fetchAllCurations` — pages are requested at
offsets 0, 1000, 2000, …; after each full page of 1000 records the
offset grows by 1000; the loop stops exactly at the first page with
fewer than 1000 records (a zero-length page included); and the result
is the concatenation of the fetched pages in fetch order, with no
deduplication, sorting, or filtering.  `B k` is the page served at
offset `1000 * k`; given enough fuel the loop terminates with the join
of pages `0 … n`, where `n` is the first short page. -/
theorem c7_pagination (source : Nat → Except String (List Curation))
    (B : Nat → List Curation) (n fuel : Nat)
    (hfull : ∀ k, k < n →
      source (1000 * k) = .ok (B k) ∧ (B k).length = 1000)
    (hlast : source (1000 * n) = .ok (B n))
    (hshort : (B n).length < 1000)
    (hfuel : n < fuel) :
    fetchAllCurations source fuel =
      some (.ok ((List.range (n + 1)).flatMap B)) := by
  unfold fetchAllCurations
  have h := fetchAllAux_run source n B 0 [] fuel
    (by intro k hk; simpa using hfull k hk) (by simpa using hlast)
    hshort hfuel
  simpa using h

/-- Witness for `c7_pagination`: a source whose page at offset 0 has a
single record terminates immediately and returns that page. -/
theorem c7_pagination_witness :
    fetchAllCurations source1 1 = some (.ok [cur1]) := by
  have h := c7_pagination source1 (fun _ => [cur1]) 0 1
    (fun k hk => absurd hk (Nat.not_lt_zero k)) rfl (by norm_num)
    Nat.one_pos
  simpa using h

theorem getEntry_map_self (f : String → α) :
    ∀ (l : List String) (h : String), h ∈ l →
      getEntry (l.map (fun x => (x, f x))) h = some (f h) := by
  intro l
  induction l with
  | nil => intro h hmem; exact absurd hmem (List.not_mem_nil h)
  | cons x rest ih =>
    intro h hmem
    simp only [List.map_cons]
    rw [getEntry]
    by_cases hx : x = h
    · subst hx
      simp
    · rw [if_neg hx]
      rcases List.mem_cons.mp hmem with heq | hm
      · exact absurd heq.symm hx
      · exact ih h hm

/-- C8: resolver fault isolation — for any receipt fetcher and batch of
transaction hashes, every hash in the batch has an entry in the result
of `extractItemIdsFromTxs` equal to its own `extractItemIdsFromTx`
value (so one transaction's failure never aborts the batch or removes
the other transactions' results); and a hash whose receipt fetch
errors, or whose log parsing errors, contributes the empty map rather
than propagating the error. -/
theorem c8_resolver_fault_isolation
    (fetchReceipt : String → Except String Receipt)
    (txHashes : List String) (h : String) (hmem : h ∈ txHashes) :
    getEntry (extractItemIdsFromTxs fetchReceipt txHashes) h =
      some (extractItemIdsFromTx fetchReceipt h) ∧
    (∀ e, fetchReceipt h = .error e →
      extractItemIdsFromTx fetchReceipt h = []) ∧
    (∀ r e, fetchReceipt h = .ok r → scanLogs [] r.logs = .error e →
      extractItemIdsFromTx fetchReceipt h = []) := by
  refine ⟨?_, ?_, ?_⟩
  · exact getEntry_map_self (extractItemIdsFromTx fetchReceipt)
      txHashes h hmem
  · intro e he
    unfold extractItemIdsFromTx
    rw [he]
  · intro r e hr he
    unfold extractItemIdsFromTx
    rw [hr]
    dsimp only
    rw [he]

/-- Witness for `c8_resolver_fault_isolation`: in the batch
`[0xgood, 0xbad]` against a fetcher that fails on `0xbad`, the failing
hash is covered by an (empty) entry, and the healthy hash still
resolves its Transfer event to item id 5. -/
theorem c8_resolver_fault_isolation_witness :
    getEntry (extractItemIdsFromTxs fetchR ["0xgood", "0xbad"]) "0xbad" =
      some (extractItemIdsFromTx fetchR "0xbad") ∧
    extractItemIdsFromTx fetchR "0xbad" = [] ∧
    getEntry (extractItemIdsFromTxs fetchR ["0xgood", "0xbad"]) "0xgood" =
      some [("0xcol", ["5"])] :=
  ⟨(c8_resolver_fault_isolation fetchR ["0xgood", "0xbad"] "0xbad"
      (by decide)).1,
    (c8_resolver_fault_isolation fetchR ["0xgood", "0xbad"] "0xbad"
      (by decide)).2.1 "receipt not found" rfl,
    by decide⟩

end CuratorFees
